import Mathlib

/-!
Verification of `dumper-vk-group` against its specification.

The development shallowly embeds the algorithmic core of the repository:
the adaptive-pagination request loop of `dumper_utils/parser.py`
(`_api_request`), and the attachment classifier, photo-size selection,
path normalisation and bulk-download logic of `dumper_utils/collector.py`.
Machine-level side effects (network, filesystem, logging) are modelled by
explicit oracles and by returning the lists of writes, log messages and
tasks that the Python code would produce.
-/

namespace DumperVK

/-- Error code of the `response size is too big` API error,
`TOO_BIG_RESPONSE_ERR = 13` in `dumper_utils/parser.py`. -/
def TOO_BIG_RESPONSE_ERR : Nat := 13

/-- Model of `vk_api.exceptions.ApiError` as far as `_api_request` inspects it:
only the numeric `code` attribute is read. -/
structure ApiError where
  code : Nat
deriving DecidableEq, Repr

/-- Page-size reduction step of `_api_request` (`parser.py`, line
`count = (count + 5) // 5`), in natural-number (floor) division. -/
def reduceCount (count : Nat) : Nat := (count + 5) / 5

/-- Shallow embedding of the paginated branch of `_api_request`
(`parser.py`, lines 25-35).  The oracle `transport` abstracts
`vk_tools.get_all(method_name, count, data)` with `method_name` and `data`
held fixed, as a function of the page size `count` alone; a recursive call
therefore models a retry from the beginning with the same parameters.  The
second component of the result is the trace of page sizes attempted, in
order.  The loop returns the transport's result on success, re-raises the
error when its code differs from `TOO_BIG_RESPONSE_ERR` or when
`count == 1`, and otherwise retries at `reduceCount count`. -/
def apiRequest (transport : Nat → Except ApiError α) (count : Nat) :
    Except ApiError α × List Nat :=
  match transport count with
  | .ok a => (.ok a, [count])
  | .error e =>
    if h : e.code ≠ TOO_BIG_RESPONSE_ERR ∨ count = 1 then
      (.error e, [count])
    else
      let r := apiRequest transport (reduceCount count)
      (r.1, count :: r.2)
termination_by (if count = 0 then 2 else count)
decreasing_by
  simp only [reduceCount]
  push_neg at h
  split <;> split <;> omega

lemma reduceCount_pos (c : Nat) : 1 ≤ reduceCount c := by
  simp only [reduceCount]
  omega

lemma reduceCount_le {c : Nat} (h : 1 ≤ c) : reduceCount c ≤ c := by
  simp only [reduceCount]
  omega

lemma reduceCount_lt {c : Nat} (h : 2 ≤ c) : reduceCount c < c := by
  simp only [reduceCount]
  omega

/-- Unfolding lemma for `apiRequest` when the transport succeeds. -/
lemma apiRequest_ok (transport : Nat → Except ApiError α) (c : Nat)
    (a : α) (ha : transport c = .ok a) :
    apiRequest transport c = (.ok a, [c]) := by
  rw [apiRequest, ha]

/-- Unfolding lemma for `apiRequest` when the transport fails unrecoverably. -/
lemma apiRequest_raise (transport : Nat → Except ApiError α) (c : Nat)
    (e : ApiError) (he : transport c = .error e)
    (h : e.code ≠ TOO_BIG_RESPONSE_ERR ∨ c = 1) :
    apiRequest transport c = (.error e, [c]) := by
  rw [apiRequest, he]
  simp [h]

/-- Unfolding lemma for `apiRequest` when the transport reports the too-big
error at a page size other than 1: the call is retried at `reduceCount c`. -/
lemma apiRequest_retry (transport : Nat → Except ApiError α) (c : Nat)
    (e : ApiError) (he : transport c = .error e)
    (hcode : e.code = TOO_BIG_RESPONSE_ERR) (hc : c ≠ 1) :
    apiRequest transport c =
      ((apiRequest transport (reduceCount c)).1,
        c :: (apiRequest transport (reduceCount c)).2) := by
  rw [apiRequest, he]
  simp [hcode, hc]

/-- Transport oracle for the claim-C1 analysis: page size 100 is rejected with
the too-big error code and every other size succeeds. -/
def bigAt100 : Nat → Except ApiError Nat :=
  fun c => if c = 100 then .error ⟨13⟩ else .ok c

/-- C1. The claim states that after a too-big error the new page size equals
`ceil(current / 5)`.  At current size 100 the code computes
`(100 + 5) // 5 = 21`, whereas `ceil(100 / 5) = 20`; the retry trace is
`[100, 21]`, not `[100, 20]`. -/
theorem C1_counterexample :
    (apiRequest bigAt100 100).2 = [100, 21] ∧ (100 + 5 - 1) / 5 = 20 ∧
      (apiRequest bigAt100 100).2 ≠ [100, (100 + 5 - 1) / 5] := by
  have h1 : apiRequest bigAt100 100 =
      ((apiRequest bigAt100 (reduceCount 100)).1,
        100 :: (apiRequest bigAt100 (reduceCount 100)).2) :=
    apiRequest_retry bigAt100 100 ⟨13⟩ (by simp [bigAt100]) rfl (by decide)
  have h2 : reduceCount 100 = 21 := by decide
  have h3 : apiRequest bigAt100 21 = (.ok 21, [21]) :=
    apiRequest_ok bigAt100 21 21 (by simp [bigAt100])
  rw [h1, h2, h3]
  refine ⟨rfl, by decide, by decide⟩

/-- C1 (amended). When the transport reports the too-big error at page size
`c ≠ 1`, the next attempted page size is `c / 5 + 1` — the code computes
`(c + 5) // 5 = ⌊c/5⌋ + 1`, which differs from `⌈c/5⌉` exactly at multiples
of 5 — and the call is retried from the beginning with the same parameters
(the same transport oracle) at that new size. -/
theorem C1_reduction_retries (transport : Nat → Except ApiError α) (c : Nat)
    (e : ApiError) (he : transport c = .error e)
    (hcode : e.code = TOO_BIG_RESPONSE_ERR) (hc : c ≠ 1) :
    reduceCount c = c / 5 + 1 ∧
      apiRequest transport c =
        ((apiRequest transport (reduceCount c)).1,
          c :: (apiRequest transport (reduceCount c)).2) := by
  constructor
  · simp only [reduceCount]
    omega
  · exact apiRequest_retry transport c e he hcode hc

/-- Witness for `C1_reduction_retries` at the concrete transport `bigAt100`
and page size 100. -/
theorem C1_reduction_retries_witness :
    reduceCount 100 = 100 / 5 + 1 ∧
      apiRequest bigAt100 100 =
        ((apiRequest bigAt100 (reduceCount 100)).1,
          100 :: (apiRequest bigAt100 (reduceCount 100)).2) :=
  C1_reduction_retries bigAt100 100 ⟨13⟩ (by simp [bigAt100]) rfl (by decide)

/-- C6. Any transport error other than the too-big condition propagates to the
caller immediately (the result is that very error and no further page size is
attempted), and a too-big error at page size 1 also propagates instead of
being retried. -/
theorem C6_error_propagates (transport : Nat → Except ApiError α) (c : Nat)
    (e : ApiError) (he : transport c = .error e)
    (h : e.code ≠ TOO_BIG_RESPONSE_ERR ∨ c = 1) :
    apiRequest transport c = (.error e, [c]) :=
  apiRequest_raise transport c e he h

/-- Transport oracle that always fails with a non-too-big error code. -/
def alwaysErr5 : Nat → Except ApiError Nat := fun _ => .error ⟨5⟩

/-- Witness for `C6_error_propagates`: a code-5 error at page size 7 is
returned as is, after a single attempt. -/
theorem C6_error_propagates_witness :
    apiRequest alwaysErr5 7 = (.error ⟨5⟩, [7]) :=
  C6_error_propagates alwaysErr5 7 ⟨5⟩ rfl (Or.inl (by decide))

/-- Helper: every iterate of `reduceCount` stays at least 1 once started at a
positive size. -/
lemma reduceCount_iterate_pos {p : Nat} (hp : 1 ≤ p) (n : Nat) :
    1 ≤ reduceCount^[n] p := by
  induction n with
  | zero => simpa using hp
  | succ n ih =>
    rw [Function.iterate_succ_apply']
    exact reduceCount_pos _

/-- Helper: iterating `reduceCount` from any positive size eventually hits 1. -/
lemma reduceCount_reaches_one : ∀ p : Nat, 1 ≤ p → ∃ n, reduceCount^[n] p = 1 := by
  intro p
  induction p using Nat.strong_induction_on with
  | _ p ih =>
    intro hp
    rcases Nat.lt_or_ge p 2 with h2 | h2
    · refine ⟨0, ?_⟩
      simp only [Function.iterate_zero, id]
      omega
    · obtain ⟨n, hn⟩ := ih (reduceCount p) (reduceCount_lt h2) (reduceCount_pos p)
      exact ⟨n + 1, by rwa [Function.iterate_succ_apply]⟩

/-- C7. For every starting page size `p ≥ 1`, iterating the reduction rule
`count ↦ (count + 5) // 5` reaches 1 in a finite number of steps, and no step
ever produces a size strictly greater than the current one. -/
theorem C7_reduction_reaches_one (p : Nat) (hp : 1 ≤ p) :
    (∃ n, reduceCount^[n] p = 1) ∧
      ∀ n, reduceCount^[n + 1] p ≤ reduceCount^[n] p := by
  constructor
  · exact reduceCount_reaches_one p hp
  · intro n
    rw [Function.iterate_succ_apply']
    exact reduceCount_le (reduceCount_iterate_pos hp n)

/-- Witness for `C7_reduction_reaches_one` at starting page size 2000 (the
page size used for `docs.get`). -/
theorem C7_reduction_reaches_one_witness :
    (∃ n, reduceCount^[n] 2000 = 1) ∧
      ∀ n, reduceCount^[n + 1] 2000 ≤ reduceCount^[n] 2000 :=
  C7_reduction_reaches_one 2000 (by decide)

/-! Embedding of `dumper_utils/collector.py`. -/

/-- Python exceptions that the modelled collector code can raise. -/
inductive PyError
  | typeError
  | indexError
deriving DecidableEq, Repr

/-- Lookup in the `IMAGE_TYPES` table of collector.py; `IMAGE_TYPES.get(t)`
returns `none` for a key outside the table, like the Python `dict.get`. -/
def IMAGE_TYPES (t : String) : Option Nat :=
  if t = "w" then some 0
  else if t = "z" then some 1
  else if t = "y" then some 2
  else if t = "x" then some 3
  else if t = "r" then some 4
  else if t = "q" then some 5
  else if t = "p" then some 6
  else if t = "o" then some 7
  else if t = "m" then some 8
  else if t = "s" then some 9
  else none

/-- One entry of a photo's `sizes` list, keeping the two fields the code reads
through `dict.get`: `type` and `url` (each possibly absent). -/
structure SizeVariant where
  type : Option String
  url : Option String
deriving DecidableEq, Repr

/-- Sort key `IMAGE_TYPES.get(x.get("type"))` used in
`_get_url_and_extenion_by_photo`: `dict.get(None)` is `None`, hence the bind. -/
def sizeKey (v : SizeVariant) : Option Nat := v.type.bind IMAGE_TYPES

/-- First element of minimal key in `x :: xs`; on ties the earliest element
wins, as for the head of a stable sort by that key. -/
def argminFirst (key : α → Nat) (x : α) (xs : List α) : α :=
  xs.foldl (fun best y => if key y < key best then y else best) x

/-- Model of `sorted(sizes, key=lambda x: IMAGE_TYPES.get(x.get("type")))[0]`
(collector.py line 117-118).  CPython's `sorted` is a stable sort, so with
every key defined the element at index 0 is the first element of minimal
key, computed here by `argminFirst`.  With two or more elements, every
element takes part in at least one comparison, and any comparison against a
`None` key raises `TypeError`; a one-element list is returned without any
comparison.  `sorted([])[0]` would raise `IndexError` (unreachable: the
caller only sorts a non-empty list). -/
def pySortHead : List SizeVariant → Except PyError SizeVariant
  | [] => .error .indexError
  | [v] => .ok v
  | v :: w :: rest =>
    if (v :: w :: rest).all (fun u => (sizeKey u).isSome) then
      .ok (argminFirst (fun u => (sizeKey u).getD 0) v (w :: rest))
    else .error .typeError

/-- Index of the last occurrence of `c` in `l`, or `none`; Python `str.rfind`
restricted to single-character needles. -/
def rfindIdx (c : Char) (l : List Char) : Option Nat :=
  match (l.reverse.findIdx? (· = c)) with
  | none => none
  | some i => some (l.length - 1 - i)

/-- Extension component `os.path.splitext(p)[1]` under posix rules: the suffix
of `p` from its last dot, provided that dot lies strictly after the last
slash and at least one character of the base name before it is not a dot;
otherwise the empty string. -/
def splitextExt (p : String) : String :=
  let cs := p.toList
  let sepIdx : Int := match rfindIdx '/' cs with | none => -1 | some i => (i : Int)
  match rfindIdx '.' cs with
  | none => ""
  | some dotIdx =>
    if (dotIdx : Int) > sepIdx ∧
        ((cs.drop (sepIdx + 1).toNat).take (dotIdx - (sepIdx + 1).toNat)).any (· ≠ '.')
    then String.mk (cs.drop dotIdx)
    else ""

/-- First component of Python `s.split("?")`: the part of `s` before its first
question mark. -/
def beforeQuery (s : String) : String := String.mk (s.toList.takeWhile (· ≠ '?'))

/-- Shallow embedding of `FilesCollector._get_url_and_extenion_by_photo`
(collector.py lines 113-122).  The argument is `photo.get("sizes")`; both
`None` and the empty list are falsy, yielding `(None, None)`.  Otherwise the
head of the list sorted by rank is taken; its missing `url` would make
`os.path.splitext(None)` raise `TypeError`, and otherwise
`ext = splitext(url)[1].split("?")[0]`. -/
def getUrlAndExtByPhoto (sizes : Option (List SizeVariant)) :
    Except PyError (Option (String × String)) :=
  match sizes with
  | none => .ok none
  | some [] => .ok none
  | some (v :: rest) =>
    match pySortHead (v :: rest) with
    | .error e => .error e
    | .ok best =>
      match best.url with
      | none => .error .typeError
      | some u => .ok (some (u, beforeQuery (splitextExt u)))

lemma argminFirst_cons (key : α → Nat) (x y : α) (ys : List α) :
    argminFirst key x (y :: ys) =
      argminFirst key (if key y < key x then y else x) ys := rfl

lemma argminFirst_mem (key : α → Nat) (xs : List α) :
    ∀ x : α, argminFirst key x xs ∈ x :: xs := by
  induction xs with
  | nil => intro x; simp [argminFirst]
  | cons y ys ih =>
    intro x
    rw [argminFirst_cons]
    rcases List.mem_cons.1 (ih (if key y < key x then y else x)) with h1 | h1
    · rw [h1]
      split
      · exact List.mem_cons_of_mem _ (List.mem_cons_self _ _)
      · exact List.mem_cons_self _ _
    · exact List.mem_cons_of_mem _ (List.mem_cons_of_mem _ h1)

lemma argminFirst_le (key : α → Nat) (xs : List α) :
    ∀ x : α, ∀ w ∈ x :: xs, key (argminFirst key x xs) ≤ key w := by
  induction xs with
  | nil =>
    intro x w hw
    rw [List.mem_singleton] at hw
    subst hw
    simp [argminFirst]
  | cons y ys ih =>
    intro x w hw
    rw [argminFirst_cons]
    have hmin : key (argminFirst key (if key y < key x then y else x) ys) ≤
        key (if key y < key x then y else x) :=
      ih _ _ (List.mem_cons_self _ _)
    rcases List.mem_cons.1 hw with h1 | h1
    · subst h1
      refine le_trans hmin ?_
      split <;> omega
    rcases List.mem_cons.1 h1 with h2 | h2
    · subst h2
      refine le_trans hmin ?_
      split <;> omega
    · exact ih _ w (List.mem_cons_of_mem _ h2)

/-- Helper: when the sizes list is non-empty and every variant's type is
ranked, the sort head exists, belongs to the list and has minimal rank. -/
lemma pySortHead_ok (sizes : List SizeVariant) (hne : sizes ≠ [])
    (hall : ∀ v ∈ sizes, (sizeKey v).isSome) :
    ∃ v, pySortHead sizes = .ok v ∧ v ∈ sizes ∧
      ∀ w ∈ sizes, (sizeKey v).getD 0 ≤ (sizeKey w).getD 0 := by
  match sizes with
  | [] => exact absurd rfl hne
  | [v] =>
    refine ⟨v, rfl, List.mem_singleton_self v, ?_⟩
    intro w hw
    rw [List.mem_singleton] at hw
    subst hw
    exact le_refl _
  | v :: w :: rest =>
    have hb : (v :: w :: rest).all (fun u => (sizeKey u).isSome) = true := by
      rw [List.all_eq_true]
      intro u hu
      exact hall u hu
    refine ⟨argminFirst (fun u => (sizeKey u).getD 0) v (w :: rest), ?_, ?_, ?_⟩
    · simp [pySortHead, hb]
    · exact argminFirst_mem _ _ _
    · exact argminFirst_le (fun u => (sizeKey u).getD 0) (w :: rest) v

/-- Size variants of kinds `s`, `m`, `x`, in that order. -/
def smxSizes : List SizeVariant :=
  [⟨some "s", some "http://a/s.jpg"⟩, ⟨some "m", some "http://a/m.jpg"⟩,
    ⟨some "x", some "http://a/x.jpg"⟩]

/-- C4. For a photo whose size-variant list is non-empty and all of whose
variants carry a type ranked by `IMAGE_TYPES`, the selected variant (head of
the list sorted by rank) is an element of the list of minimal rank; in
particular, for variants of kinds `s`, `m`, `x` the `x` variant is selected
and its URL and extension are returned. -/
theorem C4_lowest_rank_selected (sizes : List SizeVariant) (hne : sizes ≠ [])
    (hall : ∀ v ∈ sizes, (sizeKey v).isSome) :
    (∃ v, pySortHead sizes = .ok v ∧ v ∈ sizes ∧
        ∀ w ∈ sizes, (sizeKey v).getD 0 ≤ (sizeKey w).getD 0) ∧
      getUrlAndExtByPhoto (some smxSizes) =
        .ok (some ("http://a/x.jpg", ".jpg")) :=
  ⟨pySortHead_ok sizes hne hall, by rfl⟩

/-- Witness for `C4_lowest_rank_selected` at the concrete sizes list
`smxSizes`. -/
theorem C4_lowest_rank_selected_witness :
    (∃ v, pySortHead smxSizes = .ok v ∧ v ∈ smxSizes ∧
        ∀ w ∈ smxSizes, (sizeKey v).getD 0 ≤ (sizeKey w).getD 0) ∧
      getUrlAndExtByPhoto (some smxSizes) =
        .ok (some ("http://a/x.jpg", ".jpg")) :=
  C4_lowest_rank_selected smxSizes (by decide) (by decide)

/-- Sizes list with a second variant whose type is outside `IMAGE_TYPES`. -/
def badSizes : List SizeVariant :=
  [⟨some "x", some "http://a/x.jpg"⟩, ⟨some "untyped", some "http://a/u.jpg"⟩]

/-- C10. Photo size selection is total when every variant's type is ranked by
`IMAGE_TYPES`; for the concrete photo `badSizes`, which contains a variant of
unranked type next to a ranked one, the selection raises `TypeError` instead
of returning a URL. -/
theorem C10_selection_needs_ranked_types :
    (∀ sizes : List SizeVariant, sizes ≠ [] →
        (∀ v ∈ sizes, (sizeKey v).isSome) → ∃ v, pySortHead sizes = .ok v) ∧
      getUrlAndExtByPhoto (some badSizes) = .error .typeError := by
  constructor
  · intro sizes hne hall
    obtain ⟨v, hv, -, -⟩ := pySortHead_ok sizes hne hall
    exact ⟨v, hv⟩
  · rfl

/-- Witness for `C10_selection_needs_ranked_types` on a one-variant list. -/
theorem C10_selection_needs_ranked_types_witness :
    ([⟨some "w", some "u"⟩] : List SizeVariant) ≠ [] ∧
      ∃ v, pySortHead [⟨some "w", some "u"⟩] = .ok v :=
  ⟨by decide,
    C10_selection_needs_ranked_types.1 [⟨some "w", some "u"⟩] (by decide) (by decide)⟩

/-- Allowed punctuation of `_norm_path`, the `NORM_PATH_CHARACTERS` set of
collector.py (space, underscore, hyphen, em-dash, period, comma). -/
def NORM_PATH_CHARACTERS : List Char := [' ', '_', '-', '—', '.', ',']

/-- Python `str.rstrip()` with no argument: drop trailing whitespace.  After
the `_norm_path` filter the only whitespace character that can remain is the
plain space, so the exact whitespace class is immaterial there. -/
def pyRstrip (s : String) : String :=
  String.mk ((s.toList.reverse.dropWhile Char.isWhitespace).reverse)

/-- Shallow embedding of `FilesCollector._norm_path` (collector.py lines
124-126): keep only the characters that are alphanumeric or belong to
`NORM_PATH_CHARACTERS`, then strip trailing whitespace.  Python `str.isalnum`
is modelled by `Char.isAlphanum`. -/
def norm_path (filename : String) : String :=
  pyRstrip (String.mk (filename.toList.filter
    (fun c => c.isAlphanum || NORM_PATH_CHARACTERS.contains c)))

/-- Python `s[-n:]` for `n ≥ 1`: the last `n` characters of `s` (the whole
string when `n` exceeds the length). -/
def takeRight (s : String) (n : Nat) : String :=
  String.mk ((s.toList.reverse.take n).reverse)

/-- Title-with-extension computation shared by the `doc` attachment branch of
`_collect_attach_tasks` (collector.py lines 159-162) and by `download_docs`
(lines 251-254): `title = _norm_path(raw_title)`; `ext = "." + raw_ext`;
`if title[-len(ext):] != ext: title += ext`. -/
def doc_title_with_ext (rawTitle rawExt : String) : String :=
  let title := norm_path rawTitle
  let ext := "." ++ rawExt
  if takeRight title ext.length ≠ ext then title ++ ext else title

lemma take_rev_eq_iff (l t : List Char) :
    ((l.reverse.take t.length).reverse = t) ↔ t <:+ l := by
  rw [List.reverse_eq_iff, ← List.reverse_prefix, List.prefix_iff_eq_take,
    List.length_reverse, eq_comm]

/-- Characterisation of the Python suffix test `s[-len(t):] == t` (for
`len(t) ≥ 1`) as list-suffix. -/
lemma takeRight_eq_iff (s t : String) :
    (takeRight s t.length = t) ↔ t.toList <:+ s.toList := by
  have h : (takeRight s t.length = t) ↔
      ((s.toList.reverse.take t.toList.length).reverse = t.toList) := by
    constructor
    · intro h
      exact congrArg String.toList h
    · intro h
      exact congrArg String.mk h
  rw [h, take_rev_eq_iff]

lemma toList_mk (l : List Char) : (String.mk l).toList = l := rfl

lemma head?_dropWhile_false (p : Char → Bool) (l : List Char) (c : Char)
    (h : (l.dropWhile p).head? = some c) : p c = false := by
  induction l with
  | nil => simp [List.dropWhile] at h
  | cons a as ih =>
    rw [List.dropWhile_cons] at h
    by_cases hpa : p a = true
    · rw [if_pos hpa] at h
      exact ih h
    · simp only [if_neg hpa, List.head?_cons, Option.some.injEq] at h
      subst h
      simpa using hpa

/-- Helper: every character of `norm_path s` is alphanumeric or in the
allowed punctuation set. -/
lemma norm_path_chars (s : String) (c : Char) (hc : c ∈ (norm_path s).toList) :
    c.isAlphanum = true ∨ c ∈ NORM_PATH_CHARACTERS := by
  simp only [norm_path, pyRstrip, toList_mk] at hc
  rw [List.mem_reverse] at hc
  have hc2 := (List.dropWhile_sublist _).subset hc
  rw [List.mem_reverse] at hc2
  have hc3 := List.mem_filter.1 hc2
  have hor : c.isAlphanum = true ∨ NORM_PATH_CHARACTERS.contains c = true := by
    simpa using hc3.2
  rcases hor with h | h
  · exact Or.inl h
  · exact Or.inr (by simpa using h)

/-- Helper: `norm_path` never ends in a whitespace character. -/
lemma norm_path_no_trailing_space (s : String) (c : Char)
    (h : (norm_path s).toList.getLast? = some c) : c.isWhitespace = false := by
  simp only [norm_path, pyRstrip, toList_mk] at h
  rw [List.getLast?_reverse] at h
  exact head?_dropWhile_false _ _ _ h

/-- Helper: the doc naming rule appends `"." ++ ext` exactly when the
normalised title does not already end with it. -/
lemma doc_title_with_ext_eq (t e : String) :
    doc_title_with_ext t e =
      if ("." ++ e).toList <:+ (norm_path t).toList then norm_path t
      else norm_path t ++ ("." ++ e) := by
  simp only [doc_title_with_ext]
  by_cases hsuf : ("." ++ e).toList <:+ (norm_path t).toList
  · have heq : takeRight (norm_path t) ("." ++ e).length = "." ++ e :=
      (takeRight_eq_iff _ _).2 hsuf
    rw [if_neg (not_not_intro heq), if_pos hsuf]
  · have hne : takeRight (norm_path t) ("." ++ e).length ≠ "." ++ e :=
      fun hh => hsuf ((takeRight_eq_iff _ _).1 hh)
    rw [if_pos hne, if_neg hsuf]

/-- C5. The normalised document title keeps only characters that are
alphanumeric or in the allowed punctuation set, has no trailing whitespace,
and gets `"." ++ ext` appended exactly when that suffix is not already
present; for a document titled `Report` with extension `pdf` the resulting
name is `Report.pdf`, which ends in exactly one `.pdf` suffix. -/
theorem C5_doc_title_normalisation :
    (∀ s : String, ∀ c ∈ (norm_path s).toList,
        c.isAlphanum = true ∨ c ∈ NORM_PATH_CHARACTERS) ∧
    (∀ s : String, ∀ c : Char,
        (norm_path s).toList.getLast? = some c → c.isWhitespace = false) ∧
    (∀ t e : String, doc_title_with_ext t e =
        if ("." ++ e).toList <:+ (norm_path t).toList then norm_path t
        else norm_path t ++ ("." ++ e)) ∧
    (doc_title_with_ext "Report" "pdf" = "Report.pdf" ∧
      ".pdf".toList <:+ "Report.pdf".toList ∧
      ¬ ".pdf.pdf".toList <:+ "Report.pdf".toList) :=
  ⟨norm_path_chars, norm_path_no_trailing_space, doc_title_with_ext_eq,
    by decide, by decide, by decide⟩

/-- Witness for `C5_doc_title_normalisation` at the character `R` of
`norm_path "Report"` and the `Report`/`pdf` document. -/
theorem C5_doc_title_normalisation_witness :
    ('R' ∈ (norm_path "Report").toList ∧
      ('R'.isAlphanum = true ∨ 'R' ∈ NORM_PATH_CHARACTERS)) ∧
      doc_title_with_ext "Report" "pdf" = "Report.pdf" :=
  ⟨⟨by decide, C5_doc_title_normalisation.1 "Report" 'R' (by decide)⟩,
    (C5_doc_title_normalisation.2.2.2).1⟩

/-- Model of the `DownloadTask` namedtuple (collector.py lines 39-40). -/
structure DownloadTask where
  parent_type : String
  parent_id : Option Int
  obj_type : String
  obj_id : Int
  url : String
  dump_fname : String
deriving DecidableEq, Repr

/-- Model of the `AttachDescription` namedtuple (collector.py line 41). -/
structure AttachDescription where
  parent_type : String
  parent_id : Option Int
  obj_type : String
  text : String
deriving DecidableEq, Repr

/-- One attachment of `parent_obj["attachments"]`, dispatched on
`att["type"]` by `_collect_attach_tasks` (collector.py lines 134-171); each
constructor keeps exactly the payload fields that branch reads, and every
kind other than the five handled ones is collapsed into `other kind`. -/
inductive Attachment
  | video (title : String)
  | audio (artist title : String)
  | link (title url : String)
  | photo (id : Int) (sizes : Option (List SizeVariant))
  | doc (id : Int) (url title ext : String)
  | other (kind : String)
deriving DecidableEq, Repr

/-- Discriminator for the fall-through branch of the classifier. -/
def Attachment.isOther : Attachment → Bool
  | .other _ => true
  | _ => false

/-- Warnings logged by `_collect_attach_tasks`: the empty-photo warning (line
153) and the skipped-kind warning (line 169). -/
inductive CWarning
  | emptyPhoto (parent_type : String) (parent_id : Int) (obj_id : Int)
  | skipType (kind : String) (parent_type : String) (parent_id : Int)
deriving DecidableEq, Repr

/-- Tests whether a warning is the skipped-kind warning for kind `k`. -/
def CWarning.isSkipFor (k : String) : CWarning → Bool
  | .skipType k2 _ _ => k2 = k
  | _ => false

/-- Deltas of one iteration of the loop of `_collect_attach_tasks`: tasks
appended to the downloader, records appended to the no-file reporter,
warnings logged, and the resulting skipped-kind set. -/
def processAttachment (pt : String) (pid : Int) (skipped : List String) :
    Attachment →
    Except PyError
      (List DownloadTask × List AttachDescription × List CWarning × List String)
  | .video title => .ok ([], [⟨pt, some pid, "video", title⟩], [], skipped)
  | .audio artist title =>
    .ok ([], [⟨pt, some pid, "audio", artist ++ " — " ++ title⟩], [], skipped)
  | .link title url =>
    .ok ([], [⟨pt, some pid, "link", title ++ " [" ++ url ++ "]"⟩], [], skipped)
  | .photo oid sizes =>
    match getUrlAndExtByPhoto sizes with
    | .error e => .error e
    | .ok none => .ok ([], [], [.emptyPhoto pt pid oid], skipped)
    | .ok (some (u, ext)) =>
      if u = "" then .ok ([], [], [.emptyPhoto pt pid oid], skipped)
      else
        .ok ([⟨pt, some pid, "photo", oid, u,
          pt ++ toString pid ++ "_photo" ++ toString oid ++ ext⟩], [], [], skipped)
  | .doc oid url title ext =>
    .ok ([⟨pt, some pid, "doc", oid, url,
      pt ++ toString pid ++ "_doc" ++ toString oid ++ "_" ++
        doc_title_with_ext title ext⟩], [], [], skipped)
  | .other kind =>
    if kind ∈ skipped then .ok ([], [], [], skipped)
    else .ok ([], [], [.skipType kind pt pid], kind :: skipped)

/-- Shallow embedding of the loop of `_collect_attach_tasks` over
`parent_obj["attachments"]` (collector.py lines 134-171), collecting in order
the appended download tasks, the appended no-file records, the logged
warnings, and the final skipped-kind set.  A `TypeError` raised inside the
photo branch propagates. -/
def collect_attach_tasks (pt : String) (pid : Int) :
    List Attachment → List String →
    Except PyError
      (List DownloadTask × List AttachDescription × List CWarning × List String)
  | [], skipped => .ok ([], [], [], skipped)
  | att :: rest, skipped =>
    match processAttachment pt pid skipped att with
    | .error e => .error e
    | .ok (ts, rs, ws, sk) =>
      match collect_attach_tasks pt pid rest sk with
      | .error e => .error e
      | .ok (ts2, rs2, ws2, sk2) => .ok (ts ++ ts2, rs ++ rs2, ws ++ ws2, sk2)

/-- One photo object of an album's `photos_list["items"]`, keeping the fields
`download_photos` reads: `photo["id"]` and `photo.get("sizes")`. -/
structure PhotoObj where
  id : Int
  sizes : Option (List SizeVariant)
deriving DecidableEq, Repr

/-- Task-building loop of `download_photos` for one album (collector.py lines
228-234): photos without a usable URL are skipped (with a warning, not
modelled here); each remaining photo yields the task
`("album", album_id, "album_photo", id, url, "a{album_id}_p{id}{ext}")`. -/
def download_photos_tasks (albumId : Int) :
    List PhotoObj → Except PyError (List DownloadTask)
  | [] => .ok []
  | ph :: rest =>
    match getUrlAndExtByPhoto ph.sizes with
    | .error e => .error e
    | .ok none => download_photos_tasks albumId rest
    | .ok (some (u, ext)) =>
      if u = "" then download_photos_tasks albumId rest
      else
        match download_photos_tasks albumId rest with
        | .error e => .error e
        | .ok ts =>
          .ok (⟨"album", some albumId, "album_photo", ph.id, u,
            "a" ++ toString albumId ++ "_p" ++ toString ph.id ++ ext⟩ :: ts)

/-- One document object of `docs["items"]`, with the fields `download_docs`
reads. -/
structure DocObj where
  id : Int
  url : String
  title : String
  ext : String
deriving DecidableEq, Repr

/-- Task-building loop of `download_docs` (collector.py lines 250-256): each
document yields the task `("docs", None, "doc", id, url, "doc{id}_{title}")`
with the normalised, extension-suffixed title. -/
def download_docs_tasks (docs : List DocObj) : List DownloadTask :=
  docs.map fun d =>
    ⟨"docs", none, "doc", d.id, d.url,
      "doc" ++ toString d.id ++ "_" ++ doc_title_with_ext d.title d.ext⟩

/-- Helper: warning count and skipped-set evolution of one classifier step.
The step logs exactly one skipped-kind warning for `k` when the attachment is
of unsupported kind `k` not yet in the skipped set, and the final skipped set
is the initial one extended with the attachment's kind when unsupported. -/
lemma processAttachment_count (pt : String) (pid : Int) (skipped : List String)
    (a : Attachment) (ts : List DownloadTask) (rs : List AttachDescription)
    (ws : List CWarning) (sk : List String) (k : String)
    (h : processAttachment pt pid skipped a = .ok (ts, rs, ws, sk)) :
    ws.countP (·.isSkipFor k) = (if a = .other k ∧ k ∉ skipped then 1 else 0) ∧
      (k ∈ sk ↔ k ∈ skipped ∨ a = .other k) := by
  cases a with
  | video title =>
    simp only [processAttachment, Except.ok.injEq, Prod.mk.injEq] at h
    obtain ⟨h1, h2, h3, h4⟩ := h
    subst h3; subst h4
    simp
  | audio artist title =>
    simp only [processAttachment, Except.ok.injEq, Prod.mk.injEq] at h
    obtain ⟨h1, h2, h3, h4⟩ := h
    subst h3; subst h4
    simp
  | link title url =>
    simp only [processAttachment, Except.ok.injEq, Prod.mk.injEq] at h
    obtain ⟨h1, h2, h3, h4⟩ := h
    subst h3; subst h4
    simp
  | photo oid sizes =>
    simp only [processAttachment] at h
    split at h
    · exact absurd h (by simp)
    · simp only [Except.ok.injEq, Prod.mk.injEq] at h
      obtain ⟨h1, h2, h3, h4⟩ := h
      subst h3; subst h4
      simp [List.countP_cons, CWarning.isSkipFor]
    · split at h
      · simp only [Except.ok.injEq, Prod.mk.injEq] at h
        obtain ⟨h1, h2, h3, h4⟩ := h
        subst h3; subst h4
        simp [List.countP_cons, CWarning.isSkipFor]
      · simp only [Except.ok.injEq, Prod.mk.injEq] at h
        obtain ⟨h1, h2, h3, h4⟩ := h
        subst h3; subst h4
        simp
  | doc oid url title ext =>
    simp only [processAttachment, Except.ok.injEq, Prod.mk.injEq] at h
    obtain ⟨h1, h2, h3, h4⟩ := h
    subst h3; subst h4
    simp
  | other kind =>
    by_cases hks : kind ∈ skipped
    · simp only [processAttachment, if_pos hks, Except.ok.injEq, Prod.mk.injEq] at h
      obtain ⟨h1, h2, h3, h4⟩ := h
      subst h3; subst h4
      have hcond : ¬(Attachment.other kind = Attachment.other k ∧ k ∉ skipped) := by
        rintro ⟨he, hn⟩
        injection he with he2
        exact hn (he2 ▸ hks)
      refine ⟨?_, ?_⟩
      · rw [List.countP_nil, if_neg hcond]
      · constructor
        · intro hm
          exact Or.inl hm
        · rintro (hm | he)
          · exact hm
          · injection he with he2
            exact he2 ▸ hks
    · simp only [processAttachment, if_neg hks, Except.ok.injEq, Prod.mk.injEq] at h
      obtain ⟨h1, h2, h3, h4⟩ := h
      subst h3; subst h4
      refine ⟨?_, ?_⟩
      · by_cases hk : k = kind
        · subst hk
          simp [List.countP_cons, CWarning.isSkipFor, hks]
        · have hkind : kind ≠ k := fun hh => hk hh.symm
          have hcond : ¬(Attachment.other kind = Attachment.other k ∧ k ∉ skipped) := by
            rintro ⟨he, -⟩
            injection he with he2
            exact hkind he2
          rw [if_neg hcond]
          simp [List.countP_cons, CWarning.isSkipFor, hkind]
      · constructor
        · intro hm
          rcases List.mem_cons.1 hm with he | hm2
          · exact Or.inr (by rw [he])
          · exact Or.inl hm2
        · rintro (hm | he)
          · exact List.mem_cons_of_mem _ hm
          · injection he with he2
            exact he2 ▸ List.mem_cons_self _ _

/-- Helper: warning count and skipped-set evolution of a whole classifier
pass, generalised over the initial skipped set. -/
lemma collect_count (pt : String) (pid : Int) (k : String) :
    ∀ (atts : List Attachment) (skipped : List String) ts rs ws sk,
      collect_attach_tasks pt pid atts skipped = .ok (ts, rs, ws, sk) →
      (ws.countP (·.isSkipFor k) =
        if Attachment.other k ∈ atts ∧ k ∉ skipped then 1 else 0) ∧
      (k ∈ sk ↔ k ∈ skipped ∨ Attachment.other k ∈ atts) := by
  intro atts
  induction atts with
  | nil =>
    intro skipped ts rs ws sk h
    simp only [collect_attach_tasks, Except.ok.injEq, Prod.mk.injEq] at h
    obtain ⟨h1, h2, h3, h4⟩ := h
    subst h3; subst h4
    simp
  | cons a rest ih =>
    intro skipped ts rs ws sk h
    simp only [collect_attach_tasks] at h
    split at h
    · exact absurd h (by simp)
    · rename_i t1 r1 w1 s1 hp
      split at h
      · exact absurd h (by simp)
      · rename_i t2 r2 w2 s2 hr
        simp only [Except.ok.injEq, Prod.mk.injEq] at h
        obtain ⟨h1, h2, h3, h4⟩ := h
        subst h3; subst h4
        obtain ⟨hc1, hm1⟩ := processAttachment_count pt pid skipped a t1 r1 w1 s1 k hp
        obtain ⟨hc2, hm2⟩ := ih s1 t2 r2 w2 s2 hr
        have hmemc : (Attachment.other k ∈ a :: rest) ↔
            (a = Attachment.other k ∨ Attachment.other k ∈ rest) := by
          rw [List.mem_cons]
          constructor
          · rintro (he | hm)
            · exact Or.inl he.symm
            · exact Or.inr hm
          · rintro (he | hm)
            · exact Or.inl he.symm
            · exact Or.inr hm
        constructor
        · rw [List.countP_append, hc1, hc2]
          by_cases hsk : k ∈ skipped
          · have hs1 : k ∈ s1 := hm1.2 (Or.inl hsk)
            rw [if_neg (by tauto), if_neg (by tauto), if_neg (by tauto)]
          · by_cases hak : a = Attachment.other k
            · have hs1 : k ∈ s1 := hm1.2 (Or.inr hak)
              rw [if_pos ⟨hak, hsk⟩, if_neg (by tauto),
                if_pos ⟨hmemc.2 (Or.inl hak), hsk⟩]
            · have hns1 : k ∉ s1 := by
                intro hh
                rcases hm1.1 hh with hh2 | hh2
                · exact hsk hh2
                · exact hak hh2
              by_cases hrk : Attachment.other k ∈ rest
              · rw [if_neg (by tauto), if_pos ⟨hrk, hns1⟩,
                  if_pos ⟨hmemc.2 (Or.inr hrk), hsk⟩]
              · rw [if_neg (by tauto), if_neg (by tauto), if_neg (by tauto)]
        · rw [hm2, hm1, hmemc]
          tauto

/-- Helper: one classifier step produces the same tasks and records whatever
the initial skipped set is; only warnings and the skipped set can differ. -/
lemma processAttachment_sk_any (pt : String) (pid : Int) (sk1 sk2 : List String)
    (a : Attachment) (ts : List DownloadTask) (rs : List AttachDescription)
    (ws : List CWarning) (sk : List String)
    (h : processAttachment pt pid sk1 a = .ok (ts, rs, ws, sk)) :
    ∃ ws2 skb, processAttachment pt pid sk2 a = .ok (ts, rs, ws2, skb) := by
  cases a with
  | video title =>
    simp only [processAttachment, Except.ok.injEq, Prod.mk.injEq] at h
    obtain ⟨h1, h2, h3, h4⟩ := h
    subst h1; subst h2
    exact ⟨[], sk2, rfl⟩
  | audio artist title =>
    simp only [processAttachment, Except.ok.injEq, Prod.mk.injEq] at h
    obtain ⟨h1, h2, h3, h4⟩ := h
    subst h1; subst h2
    exact ⟨[], sk2, rfl⟩
  | link title url =>
    simp only [processAttachment, Except.ok.injEq, Prod.mk.injEq] at h
    obtain ⟨h1, h2, h3, h4⟩ := h
    subst h1; subst h2
    exact ⟨[], sk2, rfl⟩
  | photo oid sizes =>
    simp only [processAttachment] at h
    split at h
    · exact absurd h (by simp)
    · rename_i hg
      simp only [Except.ok.injEq, Prod.mk.injEq] at h
      obtain ⟨h1, h2, h3, h4⟩ := h
      subst h1; subst h2
      exact ⟨[.emptyPhoto pt pid oid], sk2, by simp [processAttachment, hg]⟩
    · rename_i u ext hg
      split at h
      · rename_i hu
        simp only [Except.ok.injEq, Prod.mk.injEq] at h
        obtain ⟨h1, h2, h3, h4⟩ := h
        subst h1; subst h2
        exact ⟨[.emptyPhoto pt pid oid], sk2, by simp [processAttachment, hg, hu]⟩
      · rename_i hu
        simp only [Except.ok.injEq, Prod.mk.injEq] at h
        obtain ⟨h1, h2, h3, h4⟩ := h
        subst h1; subst h2
        exact ⟨[], sk2, by simp [processAttachment, hg, hu]⟩
  | doc oid url title ext =>
    simp only [processAttachment, Except.ok.injEq, Prod.mk.injEq] at h
    obtain ⟨h1, h2, h3, h4⟩ := h
    subst h1; subst h2
    exact ⟨[], sk2, rfl⟩
  | other kind =>
    have hts : ts = [] ∧ rs = [] := by
      simp only [processAttachment] at h
      split at h <;>
        (simp only [Except.ok.injEq, Prod.mk.injEq] at h
         obtain ⟨h1, h2, h3, h4⟩ := h
         exact ⟨h1.symm, h2.symm⟩)
    obtain ⟨hts1, hts2⟩ := hts
    subst hts1; subst hts2
    by_cases hk2 : kind ∈ sk2
    · exact ⟨[], sk2, by simp [processAttachment, hk2]⟩
    · exact ⟨[.skipType kind pt pid], kind :: sk2, by simp [processAttachment, hk2]⟩

/-- Helper: a whole classifier pass produces the same tasks and records for
any initial skipped set. -/
lemma collect_sk_any (pt : String) (pid : Int) :
    ∀ (atts : List Attachment) (sk1 sk2 : List String) (ts : List DownloadTask)
      (rs : List AttachDescription) (ws : List CWarning) (sk : List String),
      collect_attach_tasks pt pid atts sk1 = .ok (ts, rs, ws, sk) →
      ∃ ws2 skb, collect_attach_tasks pt pid atts sk2 = .ok (ts, rs, ws2, skb) := by
  intro atts
  induction atts with
  | nil =>
    intro sk1 sk2 ts rs ws sk h
    simp only [collect_attach_tasks, Except.ok.injEq, Prod.mk.injEq] at h
    obtain ⟨h1, h2, h3, h4⟩ := h
    subst h1; subst h2
    exact ⟨[], sk2, rfl⟩
  | cons a rest ih =>
    intro sk1 sk2 ts rs ws sk h
    simp only [collect_attach_tasks] at h
    split at h
    · exact absurd h (by simp)
    · rename_i t1 r1 w1 s1 hp
      split at h
      · exact absurd h (by simp)
      · rename_i t2 r2 w2 s2 hr
        simp only [Except.ok.injEq, Prod.mk.injEq] at h
        obtain ⟨h1, h2, h3, h4⟩ := h
        subst h1; subst h2
        obtain ⟨w1b, s1b, hp2⟩ := processAttachment_sk_any pt pid sk1 sk2 a t1 r1 w1 s1 hp
        obtain ⟨w2b, s2b, hr2⟩ := ih s1 s1b t2 r2 w2 s2 hr
        exact ⟨w1b ++ w2b, s2b, by simp [collect_attach_tasks, hp2, hr2]⟩

/-- Helper: the tasks and records from a classifier step on an unsupported
kind are empty. -/
lemma processAttachment_other_empty (pt : String) (pid : Int)
    (skipped : List String) (kind : String) (ts : List DownloadTask)
    (rs : List AttachDescription) (ws : List CWarning) (sk : List String)
    (h : processAttachment pt pid skipped (.other kind) = .ok (ts, rs, ws, sk)) :
    ts = [] ∧ rs = [] := by
  simp only [processAttachment] at h
  split at h <;>
    (simp only [Except.ok.injEq, Prod.mk.injEq] at h
     obtain ⟨h1, h2, h3, h4⟩ := h
     exact ⟨h1.symm, h2.symm⟩)

/-- Helper: removing the unsupported-kind attachments from a pass leaves the
produced tasks and records unchanged. -/
lemma collect_filter_other (pt : String) (pid : Int) :
    ∀ (atts : List Attachment) (skipped : List String) (ts : List DownloadTask)
      (rs : List AttachDescription) (ws : List CWarning) (sk : List String),
      collect_attach_tasks pt pid atts skipped = .ok (ts, rs, ws, sk) →
      ∃ ws2 skb,
        collect_attach_tasks pt pid (atts.filter fun a => !a.isOther) skipped =
          .ok (ts, rs, ws2, skb) := by
  intro atts
  induction atts with
  | nil =>
    intro skipped ts rs ws sk h
    simp only [collect_attach_tasks, Except.ok.injEq, Prod.mk.injEq] at h
    obtain ⟨h1, h2, h3, h4⟩ := h
    subst h1; subst h2
    exact ⟨[], skipped, by simp [collect_attach_tasks]⟩
  | cons a rest ih =>
    intro skipped ts rs ws sk h
    simp only [collect_attach_tasks] at h
    split at h
    · exact absurd h (by simp)
    · rename_i t1 r1 w1 s1 hp
      split at h
      · exact absurd h (by simp)
      · rename_i t2 r2 w2 s2 hr
        simp only [Except.ok.injEq, Prod.mk.injEq] at h
        obtain ⟨h1, h2, h3, h4⟩ := h
        subst h1; subst h2
        by_cases hao : a.isOther = true
        · obtain ⟨kind, hk⟩ : ∃ kind, a = .other kind := by
            cases a <;> simp [Attachment.isOther] at hao ⊢
          subst hk
          obtain ⟨ht1, hr1⟩ := processAttachment_other_empty pt pid skipped kind
            t1 r1 w1 s1 hp
          subst ht1; subst hr1
          obtain ⟨ws2, skb, hc⟩ := ih s1 t2 r2 w2 s2 hr
          obtain ⟨ws3, skb2, hc2⟩ := collect_sk_any pt pid
            (rest.filter fun a => !a.isOther) s1 skipped t2 r2 ws2 skb hc
          refine ⟨ws3, skb2, ?_⟩
          rw [List.filter_cons, if_neg (by simp [hao])]
          simpa using hc2
        · obtain ⟨ws2, skb, hc⟩ := ih s1 t2 r2 w2 s2 hr
          refine ⟨w1 ++ ws2, skb, ?_⟩
          rw [List.filter_cons, if_pos (by simp [hao])]
          simp [collect_attach_tasks, hp, hc]

/-- C8. In a classification pass starting from an empty skipped-kind set,
every unsupported kind occurring in the pass yields exactly one skipped-kind
warning, and removing all unsupported-kind attachments from the pass leaves
the produced tasks and no-file records unchanged (no task or record comes
from any occurrence of an unsupported kind). -/
theorem C8_one_warning_per_kind (pt : String) (pid : Int)
    (atts : List Attachment) (ts : List DownloadTask)
    (rs : List AttachDescription) (ws : List CWarning) (sk : List String)
    (h : collect_attach_tasks pt pid atts [] = .ok (ts, rs, ws, sk))
    (k : String) (hk : Attachment.other k ∈ atts) :
    ws.countP (·.isSkipFor k) = 1 ∧
      ∃ ws2 skb,
        collect_attach_tasks pt pid (atts.filter fun a => !a.isOther) [] =
          .ok (ts, rs, ws2, skb) := by
  constructor
  · have hc := (collect_count pt pid k atts [] ts rs ws sk h).1
    rw [hc, if_pos ⟨hk, by simp⟩]
  · exact collect_filter_other pt pid atts [] ts rs ws sk h

/-- Witness for `C8_one_warning_per_kind`: two attachments of unsupported
kind `market` in one pass yield exactly one warning for `market`. -/
theorem C8_one_warning_per_kind_witness :
    ([CWarning.skipType "market" "post" 1].countP (·.isSkipFor "market") = 1) ∧
      ∃ ws2 skb,
        collect_attach_tasks "post" 1
            (([Attachment.other "market", Attachment.other "market"]).filter
              fun a => !a.isOther) [] = .ok ([], [], ws2, skb) :=
  C8_one_warning_per_kind "post" 1 [.other "market", .other "market"] [] []
    [CWarning.skipType "market" "post" 1] ["market"] (by rfl) "market" (by decide)

/-- Helper: tasks from one classifier step have a non-empty URL, provided any
doc payload carried by the attachment has a non-empty `url` field. -/
lemma processAttachment_url (pt : String) (pid : Int) (skipped : List String)
    (a : Attachment) (ts : List DownloadTask) (rs : List AttachDescription)
    (ws : List CWarning) (sk : List String)
    (h : processAttachment pt pid skipped a = .ok (ts, rs, ws, sk))
    (hdoc : ∀ i u t2 e2, a = Attachment.doc i u t2 e2 → u ≠ "") :
    ∀ t ∈ ts, t.url ≠ "" := by
  cases a with
  | video title =>
    simp only [processAttachment, Except.ok.injEq, Prod.mk.injEq] at h
    obtain ⟨h1, h2, h3, h4⟩ := h
    subst h1
    intro t ht
    simp at ht
  | audio artist title =>
    simp only [processAttachment, Except.ok.injEq, Prod.mk.injEq] at h
    obtain ⟨h1, h2, h3, h4⟩ := h
    subst h1
    intro t ht
    simp at ht
  | link title url =>
    simp only [processAttachment, Except.ok.injEq, Prod.mk.injEq] at h
    obtain ⟨h1, h2, h3, h4⟩ := h
    subst h1
    intro t ht
    simp at ht
  | photo oid sizes =>
    simp only [processAttachment] at h
    split at h
    · exact absurd h (by simp)
    · simp only [Except.ok.injEq, Prod.mk.injEq] at h
      obtain ⟨h1, h2, h3, h4⟩ := h
      subst h1
      intro t ht
      simp at ht
    · rename_i u ext hg
      split at h
      · simp only [Except.ok.injEq, Prod.mk.injEq] at h
        obtain ⟨h1, h2, h3, h4⟩ := h
        subst h1
        intro t ht
        simp at ht
      · rename_i hu
        simp only [Except.ok.injEq, Prod.mk.injEq] at h
        obtain ⟨h1, h2, h3, h4⟩ := h
        subst h1
        intro t ht
        rw [List.mem_singleton] at ht
        subst ht
        exact hu
  | doc oid url title ext =>
    simp only [processAttachment, Except.ok.injEq, Prod.mk.injEq] at h
    obtain ⟨h1, h2, h3, h4⟩ := h
    subst h1
    intro t ht
    rw [List.mem_singleton] at ht
    subst ht
    exact hdoc oid url title ext rfl
  | other kind =>
    obtain ⟨ht1, -⟩ := processAttachment_other_empty pt pid skipped kind ts rs ws sk h
    subst ht1
    intro t ht
    simp at ht

/-- Helper: every task produced by a classifier pass has a non-empty URL,
provided every doc attachment in the pass has a non-empty `url` field. -/
lemma collect_url (pt : String) (pid : Int) :
    ∀ (atts : List Attachment) (skipped : List String) (ts : List DownloadTask)
      (rs : List AttachDescription) (ws : List CWarning) (sk : List String),
      collect_attach_tasks pt pid atts skipped = .ok (ts, rs, ws, sk) →
      (∀ i u t2 e2, Attachment.doc i u t2 e2 ∈ atts → u ≠ "") →
      ∀ t ∈ ts, t.url ≠ "" := by
  intro atts
  induction atts with
  | nil =>
    intro skipped ts rs ws sk h hdoc
    simp only [collect_attach_tasks, Except.ok.injEq, Prod.mk.injEq] at h
    obtain ⟨h1, h2, h3, h4⟩ := h
    subst h1
    intro t ht
    simp at ht
  | cons a rest ih =>
    intro skipped ts rs ws sk h hdoc
    simp only [collect_attach_tasks] at h
    split at h
    · exact absurd h (by simp)
    · rename_i t1 r1 w1 s1 hp
      split at h
      · exact absurd h (by simp)
      · rename_i t2 r2 w2 s2 hr
        simp only [Except.ok.injEq, Prod.mk.injEq] at h
        obtain ⟨h1, h2, h3, h4⟩ := h
        subst h1
        intro t ht
        rcases List.mem_append.1 ht with hm | hm
        · exact processAttachment_url pt pid skipped a t1 r1 w1 s1 hp
            (fun i u t2b e2 he =>
              hdoc i u t2b e2 (by rw [← he]; exact List.mem_cons_self a rest)) t hm
        · exact ih s1 t2 r2 w2 s2 hr
            (fun i u t2b e2 hm2 => hdoc i u t2b e2 (List.mem_cons_of_mem a hm2)) t hm

/-- Helper: every task of an album enumeration has a non-empty URL (the loop
skips photos whose resolved URL is missing or empty). -/
lemma download_photos_tasks_url (albumId : Int) :
    ∀ (photos : List PhotoObj) (ts : List DownloadTask),
      download_photos_tasks albumId photos = .ok ts → ∀ t ∈ ts, t.url ≠ "" := by
  intro photos
  induction photos with
  | nil =>
    intro ts h
    simp only [download_photos_tasks, Except.ok.injEq] at h
    subst h
    intro t ht
    simp at ht
  | cons ph rest ih =>
    intro ts h
    simp only [download_photos_tasks] at h
    split at h
    · exact absurd h (by simp)
    · exact ih ts h
    · rename_i u ext hg
      split at h
      · exact ih ts h
      · rename_i hu
        split at h
        · exact absurd h (by simp)
        · rename_i ts2 hr
          simp only [Except.ok.injEq] at h
          subst h
          intro t ht
          rcases List.mem_cons.1 ht with he | hm
          · subst he
            exact hu
          · exact ih ts2 hr t hm

/-- Helper: every task of the document enumeration carries the document's own
URL verbatim, hence is non-empty when every input URL is. -/
lemma download_docs_tasks_url (docs : List DocObj)
    (hd : ∀ d ∈ docs, d.url ≠ "") :
    ∀ t ∈ download_docs_tasks docs, t.url ≠ "" := by
  intro t ht
  simp only [download_docs_tasks, List.mem_map] at ht
  obtain ⟨d, hdmem, hdt⟩ := ht
  subst hdt
  exact hd d hdmem

/-- C9 counterexample: the claim that every produced `DownloadTask` has a
non-empty `source_url` fails on the code: the doc branch of
`_collect_attach_tasks` copies `att["doc"]["url"]` without any emptiness
guard, so a doc attachment whose `url` field is the empty string yields a
task with an empty URL. -/
theorem C9_counterexample :
    ¬ (∀ (ts : List DownloadTask) (rs : List AttachDescription)
        (ws : List CWarning) (sk : List String),
        collect_attach_tasks "post" 1 [.doc 7 "" "Report" "pdf"] [] =
          .ok (ts, rs, ws, sk) → ∀ t ∈ ts, t.url ≠ "") := by
  intro hall
  have h := hall [⟨"post", some 1, "doc", 7, "", "post1_doc7_Report.pdf"⟩]
    [] [] [] (by rfl)
  exact h _ (List.mem_singleton_self _) rfl

/-- C9 (amended). Every `DownloadTask` produced from a photo attachment or an
album photo has a non-empty `source_url` unconditionally (the classifier
skips photos with a falsy URL); doc-derived tasks copy the document's `url`
field verbatim, so every produced task has a non-empty `source_url` provided
each input document's `url` is non-empty. -/
theorem C9_nonempty_source_url (pt : String) (pid : Int)
    (atts : List Attachment) (ts : List DownloadTask)
    (rs : List AttachDescription) (ws : List CWarning) (sk : List String)
    (h : collect_attach_tasks pt pid atts [] = .ok (ts, rs, ws, sk))
    (hdoc : ∀ i u t2 e2, Attachment.doc i u t2 e2 ∈ atts → u ≠ "")
    (albumId : Int) (photos : List PhotoObj) (pts : List DownloadTask)
    (hph : download_photos_tasks albumId photos = .ok pts)
    (docs : List DocObj) (hdocs : ∀ d ∈ docs, d.url ≠ "") :
    (∀ t ∈ ts, t.url ≠ "") ∧ (∀ t ∈ pts, t.url ≠ "") ∧
      (∀ t ∈ download_docs_tasks docs, t.url ≠ "") :=
  ⟨collect_url pt pid atts [] ts rs ws sk h hdoc,
    download_photos_tasks_url albumId photos pts hph,
    download_docs_tasks_url docs hdocs⟩

/-- Witness for `C9_nonempty_source_url` at a concrete doc attachment, an
empty album and a one-document library. -/
theorem C9_nonempty_source_url_witness :
    (∀ t ∈ [(⟨"post", some 1, "doc", 7, "http://d",
        "post1_doc7_Report.pdf"⟩ : DownloadTask)], t.url ≠ "") ∧
      (∀ t ∈ ([] : List DownloadTask), t.url ≠ "") ∧
      (∀ t ∈ download_docs_tasks [⟨1, "http://u", "T", "txt"⟩], t.url ≠ "") :=
  C9_nonempty_source_url "post" 1 [.doc 7 "http://d" "Report" "pdf"]
    [⟨"post", some 1, "doc", 7, "http://d", "post1_doc7_Report.pdf"⟩] [] [] []
    (by rfl)
    (by
      intro i u t2 e2 hm
      rw [List.mem_singleton] at hm
      injection hm with hm1 hm2 hm3 hm4
      subst hm2
      decide)
    0 [] [] (by rfl) [⟨1, "http://u", "T", "txt"⟩] (by decide)

/-- Outcome of `session.get(url)` for one URL: an HTTP response (status code
and body bytes) or an exception raised by the transport. -/
inductive FetchResult
  | response (status : Nat) (body : List Nat)
  | transportError
deriving DecidableEq, Repr

/-- Transport exception escaping a download batch. -/
inductive NetError
  | transportError
deriving DecidableEq, Repr

/-- Error log entry written by `Downloader._download_file` on a non-200
status (collector.py lines 56-58). -/
structure FailLog where
  parent_type : String
  parent_id : Option Int
  obj_id : Int
  url : String
deriving DecidableEq, Repr

/-- File written by `_download_file`: destination path and raw contents. -/
structure FileWrite where
  path : String
  contents : List Nat
deriving DecidableEq, Repr

/-- Shallow embedding of `Downloader._download_file` (collector.py lines
53-63): fetch `task.url`; an exception raised by the transport propagates.
Otherwise, when the status is not 200 the failure is logged, and the
response body is then read and written to `dump_dir/dump_fname` in every
non-raising case — the status check only logs; it does not suppress the
write. -/
def download_file (fetch : String → FetchResult) (dumpDir : String)
    (task : DownloadTask) : Except NetError (List FailLog × FileWrite) :=
  match fetch task.url with
  | .transportError => .error .transportError
  | .response status body =>
    .ok ((if status ≠ 200 then
            [⟨task.parent_type, task.parent_id, task.obj_id, task.url⟩]
          else []),
      ⟨dumpDir ++ "/" ++ task.dump_fname, body⟩)

/-- Shallow embedding of `Downloader._download_files_async` (collector.py
lines 65-67), that is `asyncio.gather(*tasks)` without
`return_exceptions=True`: when every task's fetch returns a response, the
batch resolves with all failure logs and file writes; when any task raises a
transport error, the `gather` call re-raises that exception to
`asyncio.run`, so the batch call itself raises instead of resolving, and
completion of the sibling tasks is not awaited — the model then reports only
the error. -/
def download_files_async (fetch : String → FetchResult) (dumpDir : String) :
    List DownloadTask → Except NetError (List FailLog × List FileWrite)
  | [] => .ok ([], [])
  | t :: rest =>
    match download_file fetch dumpDir t with
    | .error e => .error e
    | .ok (logs, w) =>
      match download_files_async fetch dumpDir rest with
      | .error e => .error e
      | .ok (ls, ws) => .ok (logs ++ ls, w :: ws)

/-- Fetch oracle answering every URL with a 404 response and body `[104, 105]`. -/
def fetch404 : String → FetchResult := fun _ => .response 404 [104, 105]

/-- Concrete photo download task used against `fetch404`. -/
def photoTask : DownloadTask :=
  ⟨"post", some 1, "photo", 3, "http://a/x.jpg", "post1_photo3.jpg"⟩

/-- C2. The claim says a failed fetch produces no output file for that task.
In `_download_file` the `resp.status != 200` check only logs; the body is
then read and the output file written unconditionally: at a task whose URL
answers with status 404, the failure is logged and the file is nevertheless
written, holding the error body. -/
theorem C2_failed_status_still_writes :
    download_file fetch404 "attachments" photoTask =
      .ok ([⟨"post", some 1, 3, "http://a/x.jpg"⟩],
        ⟨"attachments/post1_photo3.jpg", [104, 105]⟩) := rfl

/-- Fetch oracle raising a transport error exactly on `http://b`. -/
def fetchBfails : String → FetchResult := fun u =>
  if u = "http://b" then .transportError else .response 200 [7]

/-- First task of the three-task batch. -/
def taskA : DownloadTask := ⟨"post", some 1, "photo", 1, "http://a", "a.bin"⟩

/-- Second task of the three-task batch; its fetch raises. -/
def taskB : DownloadTask := ⟨"post", some 1, "photo", 2, "http://b", "b.bin"⟩

/-- Third task of the three-task batch. -/
def taskC : DownloadTask := ⟨"post", some 1, "photo", 3, "http://c", "c.bin"⟩

/-- C3. The claim says a transport error in one task of a batch of three does
not abort its siblings and the batch completes once all tasks resolve.  In
the code the batch is `asyncio.gather` without `return_exceptions=True`, so
task 2's transport error re-raises out of the batch call: the batch reports
the error instead of resolving — even though tasks 1 and 3, taken alone,
would each succeed and produce their file writes (second and third
conjuncts). -/
theorem C3_transport_error_aborts_batch :
    download_files_async fetchBfails "attachments" [taskA, taskB, taskC] =
      .error .transportError ∧
      download_file fetchBfails "attachments" taskA =
        .ok ([], ⟨"attachments/a.bin", [7]⟩) ∧
      download_file fetchBfails "attachments" taskC =
        .ok ([], ⟨"attachments/c.bin", [7]⟩) :=
  ⟨rfl, rfl, rfl⟩

end DumperVK
